import Mathlib

/-!
Verification of the entity/component/ability simulation layer of the rfo
repository, shallowly embedded in Lean 4.

Numbers in the source are Javascript numerics; the simulation layer only
performs field arithmetic and comparisons on them, so they are modelled as
rationals.  Rendering-engine concerns (meshes, materials, animation groups,
particle systems, console logging, wall-clock timers used only for visual
cleanup) are presentation-only per the specification and are not part of the
simulation state; the definitions below carry exactly the simulation fields
of the corresponding classes.
-/

/-- Three-component vector of the rendering library, reduced to the fields the
simulation reads and writes (x, y, z coordinates). -/
structure Vec3 where
  x : ℚ
  y : ℚ
  z : ℚ
  deriving DecidableEq

def Vec3.add (a b : Vec3) : Vec3 := ⟨a.x + b.x, a.y + b.y, a.z + b.z⟩

def Vec3.scale (q : ℚ) (v : Vec3) : Vec3 := ⟨q * v.x, q * v.y, q * v.z⟩

/-- Character races (CharacterRace enum). -/
inductive CharacterRace where
  | bellato
  | cora
  | accretia
  deriving DecidableEq

/-- Simulation state of CharacterComponent: the CharacterStats record fields,
the death flag, the movement intent (_isMoving and _targetPosition) and the
mesh position that the movement code mutates.  Animation state and mesh
rotation are presentation-only and omitted. -/
structure Character where
  health : ℚ
  maxHealth : ℚ
  mana : ℚ
  maxMana : ℚ
  attack : ℚ
  defense : ℚ
  speed : ℚ
  level : ℚ
  experience : ℚ
  isDead : Bool
  isMoving : Bool
  targetPosition : Option Vec3
  position : Vec3
  deriving DecidableEq

/-- CharacterComponent.initializeStats, together with the constructor defaults
(_isDead = false, _isMoving = false, no target) and the spawn position. -/
def CharacterComponent.initializeStats (race : CharacterRace) (pos : Vec3) : Character :=
  match race with
  | CharacterRace.bellato =>
      { health := 100, maxHealth := 100, mana := 100, maxMana := 100, attack := 10,
        defense := 5, speed := 3, level := 1, experience := 0,
        isDead := false, isMoving := false, targetPosition := Option.none, position := pos }
  | CharacterRace.cora =>
      { health := 80, maxHealth := 80, mana := 120, maxMana := 120, attack := 15,
        defense := 3, speed := 4, level := 1, experience := 0,
        isDead := false, isMoving := false, targetPosition := Option.none, position := pos }
  | CharacterRace.accretia =>
      { health := 120, maxHealth := 120, mana := 80, maxMana := 80, attack := 12,
        defense := 8, speed := 2, level := 1, experience := 0,
        isDead := false, isMoving := false, targetPosition := Option.none, position := pos }

/-- CharacterComponent.takeDamage: no-op when dead, otherwise subtract and
clamp at 0, setting the death flag when health reaches 0 (die() itself only
plays an animation). -/
def CharacterComponent.takeDamage (amount : ℚ) (c : Character) : Character :=
  if c.isDead then c
  else if c.health - amount ≤ 0 then { c with health := 0, isDead := true }
  else { c with health := c.health - amount }

/-- CharacterComponent.heal: no-op when dead, otherwise add and clamp at
maxHealth. -/
def CharacterComponent.heal (amount : ℚ) (c : Character) : Character :=
  if c.isDead then c
  else if c.health + amount > c.maxHealth then { c with health := c.maxHealth }
  else { c with health := c.health + amount }

/-- CharacterComponent.restoreMana: unconditional clamp-add (no dead guard in
the source). -/
def CharacterComponent.restoreMana (amount : ℚ) (c : Character) : Character :=
  let m := c.mana + amount
  if m > c.maxMana then { c with mana := c.maxMana } else { c with mana := m }

/-- CharacterComponent.spendMana: deduct iff mana suffices, reporting success. -/
def CharacterComponent.spendMana (amount : ℚ) (c : Character) : Bool × Character :=
  if c.mana ≥ amount then (true, { c with mana := c.mana - amount })
  else (false, c)

/-- CharacterComponent.levelUp: level + 1, experience reset to 0, maxHealth
+ 20 with full heal, maxMana + 10 with full mana, attack + 2, defense + 1. -/
def CharacterComponent.levelUp (c : Character) : Character :=
  let mH := c.maxHealth + 20
  let mM := c.maxMana + 10
  { c with level := c.level + 1, experience := 0,
           maxHealth := mH, health := mH,
           maxMana := mM, mana := mM,
           attack := c.attack + 2, defense := c.defense + 1 }

/-- CharacterComponent.gainExperience: add experience, then a single level-up
check against level * 100. -/
def CharacterComponent.gainExperience (amount : ℚ) (c : Character) : Character :=
  let c1 := { c with experience := c.experience + amount }
  if c1.experience ≥ c1.level * 100 then CharacterComponent.levelUp c1 else c1

/-- CharacterComponent.attack: no-op when the attacker is dead (the target is
returned unchanged); otherwise deal max(1, attack - target.defense) damage to
the target via takeDamage.  The attacker itself is not mutated (animation
scheduling is presentation-only), so the function returns the new target. -/
def CharacterComponent.attack (a t : Character) : Character :=
  if a.isDead then t
  else CharacterComponent.takeDamage (max 1 (a.attack - t.defense)) t

/-- CharacterComponent.moveTo: set the movement intent (the walking-animation
request is presentation-only). -/
def CharacterComponent.moveTo (tp : Vec3) (c : Character) : Character :=
  { c with isMoving := true, targetPosition := some tp }

/-- CharacterComponent.stopMovement: clear the movement intent. -/
def CharacterComponent.stopMovement (c : Character) : Character :=
  { c with isMoving := false, targetPosition := Option.none }

/-- CharacterComponent.moveTowards.  The source zeroes the y component of the
direction, compares its Euclidean length against the stop epsilon 0.1, and on
the far branch advances the position by normalize(direction) * speed * dt.
Both the distance and 0.1 are nonnegative, so distance < 0.1 is compared here
as squared distance < 1/100 (the square root of a rational is not rational).
Vector normalization is the rendering library routine and is passed in
abstractly as unit; mesh rotation updates are presentation-only and omitted. -/
def CharacterComponent.moveTowards (unit : Vec3 → Vec3) (tp : Vec3) (dt : ℚ)
    (c : Character) : Character :=
  if (tp.x - c.position.x) * (tp.x - c.position.x) +
      (tp.z - c.position.z) * (tp.z - c.position.z) < 1 / 100 then
    { c with isMoving := false, targetPosition := Option.none }
  else
    { c with position := Vec3.add c.position (Vec3.scale (c.speed * dt) (unit ⟨tp.x - c.position.x, 0, tp.z - c.position.z⟩)) }

/-- CharacterComponent.regenerateMana: 2% of maxMana per second, clamped. -/
def CharacterComponent.regenerateMana (dt : ℚ) (c : Character) : Character :=
  { c with mana := min (c.mana + c.maxMana * (2 / 100) * dt) c.maxMana }

/-- CharacterComponent.update: no-op when dead; when moving with a target,
moveTowards; the non-moving branch only resets presentation tilt and requests
the idle animation; finally passive mana regeneration always applies. -/
def CharacterComponent.update (unit : Vec3 → Vec3) (dt : ℚ) (c : Character) : Character :=
  if c.isDead then c
  else
    let c1 :=
      if c.isMoving then
        match c.targetPosition with
        | some tp => CharacterComponent.moveTowards unit tp dt c
        | Option.none => c
      else c
    CharacterComponent.regenerateMana dt c1

/-- AbilityType enum. -/
inductive AbilityType where
  | active
  | passive
  | toggle
  deriving DecidableEq

/-- AbilityTargetType enum. -/
inductive AbilityTargetType where
  | none
  | singleTarget
  | area
  | direction
  deriving DecidableEq

/-- AbilityData descriptor (the simulation fields; name, description and icon
are display strings never read by the simulation). -/
structure AbilityData where
  id : String
  cooldown : ℚ
  manaCost : ℚ
  type : AbilityType
  targetType : AbilityTargetType
  range : ℚ
  damage : Option ℚ
  duration : Option ℚ
  deriving DecidableEq

/-- Mutable state of the abstract Ability base class (_remainingCooldown and
_isActive), together with the subclass-specific effect state eff. -/
structure AbilityState (σ : Type) where
  remainingCooldown : ℚ
  isActive : Bool
  eff : σ
  deriving DecidableEq

/-- Ability.update: decrement the cooldown by dt flooring at 0, then invoke
the subclass hook updateActiveEffect (hook) when the ability is flagged
active and not passive.  The hook may mutate both the subclass state and the
owner character. -/
def Ability.update {σ : Type} (data : AbilityData)
    (hook : ℚ → σ → Character → σ × Character) (dt : ℚ)
    (st : AbilityState σ) (owner : Character) : AbilityState σ × Character :=
  if st.isActive = true ∧ data.type ≠ AbilityType.passive then
    ({ remainingCooldown :=
          if 0 < st.remainingCooldown then
            (if st.remainingCooldown - dt < 0 then 0 else st.remainingCooldown - dt)
          else st.remainingCooldown,
       isActive := st.isActive, eff := (hook dt st.eff owner).1 },
     (hook dt st.eff owner).2)
  else
    ({ st with remainingCooldown :=
          if 0 < st.remainingCooldown then
            (if st.remainingCooldown - dt < 0 then 0 else st.remainingCooldown - dt)
          else st.remainingCooldown },
     owner)

/-- Ability.activate (the base-class template method).  The subclass hooks
canActivate (canAct) and performEffect (perform) are passed in abstractly;
in the source they may read the owner and the ability-specific state (which
includes the supplied target where relevant).  Fail fast returning false with
no mutation when on cooldown, short of mana, or the precondition rejects;
otherwise deduct the cost, set the cooldown, and branch on the kind exactly
as the source does (toggle flips the flag; active sets it, performs the
effect once, and clears it again before returning; the passive kind has no
branch, leaving the flag as it was). -/
def Ability.activate {σ : Type} (data : AbilityData)
    (canAct : σ → Character → Bool) (perform : σ → Character → σ × Character)
    (st : AbilityState σ) (owner : Character) : Bool × AbilityState σ × Character :=
  if 0 < st.remainingCooldown then (false, st, owner)
  else if owner.mana < data.manaCost then (false, st, owner)
  else if canAct st.eff owner = false then (false, st, owner)
  else
    let owner1 : Character := { owner with mana := owner.mana - data.manaCost }
    match data.type with
    | AbilityType.toggle =>
        (true, { remainingCooldown := data.cooldown, isActive := !st.isActive, eff := st.eff }, owner1)
    | AbilityType.active =>
        let p := perform st.eff owner1
        (true, { remainingCooldown := data.cooldown, isActive := false, eff := p.1 }, p.2)
    | AbilityType.passive =>
        (true, { st with remainingCooldown := data.cooldown }, owner1)

/-- Javascript logical-or applied to an optional numeric field with a default:
an absent value or a 0 value (0 is falsy) both select the default. -/
def jsOrDefault (v : Option ℚ) (dflt : ℚ) : ℚ :=
  match v with
  | some x => if x = 0 then dflt else x
  | Option.none => dflt

/-- Subclass fields of ShieldGeneratorAbility: _originalDefense, _buffActive,
_buffDuration. -/
structure ShieldGeneratorState where
  originalDefense : ℚ
  buffActive : Bool
  buffDuration : ℚ
  deriving DecidableEq

/-- ShieldGeneratorAbility.canActivate: always true (self ability). -/
def ShieldGeneratorAbility.canActivate (_s : ShieldGeneratorState) (_o : Character) : Bool :=
  true

/-- ShieldGeneratorAbility.performEffect: record the original defense, set
defense to Math.floor(original * 1.5), mark the buff active with duration
data.duration or 5 (Javascript or).  The shield mesh is presentation-only. -/
def ShieldGeneratorAbility.performEffect (data : AbilityData)
    (_s : ShieldGeneratorState) (o : Character) : ShieldGeneratorState × Character :=
  let orig := o.defense
  ({ originalDefense := orig, buffActive := true,
     buffDuration := jsOrDefault data.duration 5 },
   { o with defense := ((⌊orig * (3 / 2)⌋ : ℤ) : ℚ) })

/-- ShieldGeneratorAbility.updateActiveEffect: while the buff is active,
decrement the duration by dt; at ≤ 0, clear the buff and restore the recorded
defense. -/
def ShieldGeneratorAbility.updateActiveEffect (dt : ℚ)
    (s : ShieldGeneratorState) (o : Character) : ShieldGeneratorState × Character :=
  if s.buffActive = false then (s, o)
  else
    let d := s.buffDuration - dt
    if d ≤ 0 then
      ({ s with buffDuration := d, buffActive := false }, { o with defense := s.originalDefense })
    else
      ({ s with buffDuration := d }, o)

/-- The shield generator descriptor from createBellatoEngineerHero. -/
def shieldGeneratorData : AbilityData :=
  { id := "shield_generator", cooldown := 20, manaCost := 30,
    type := AbilityType.active, targetType := AbilityTargetType.none,
    range := 0, damage := Option.none, duration := some 5 }

/-- Freshly constructed shield generator ability state: cooldown 0, inactive,
zeroed subclass fields, matching the field initializers. -/
def shieldGeneratorInit : AbilityState ShieldGeneratorState :=
  { remainingCooldown := 0, isActive := false,
    eff := { originalDefense := 0, buffActive := false, buffDuration := 0 } }

/-- Instrumented component record: an identity plus which optional lifecycle
methods (init, destroy) the component defines.  Lifecycle invocations are
reported as events so that theorems can count them. -/
structure Comp where
  cid : Nat
  hasInit : Bool
  hasDestroy : Bool
  deriving DecidableEq

/-- Lifecycle invocation events emitted by entity operations. -/
inductive CompEvent where
  | initCall (cid : Nat)
  | destroyCall (cid : Nat)
  deriving DecidableEq

/-- Javascript Map.get: first (unique) matching key. -/
def mapGet {α : Type} (k : String) : List (String × α) → Option α
  | [] => Option.none
  | (k1, v1) :: rest => if k1 = k then some v1 else mapGet k rest

/-- Javascript Map.set: replace in place keeping insertion order, else append. -/
def mapSet {α : Type} (k : String) (v : α) : List (String × α) → List (String × α)
  | [] => [(k, v)]
  | (k1, v1) :: rest => if k1 = k then (k, v) :: rest else (k1, v1) :: mapSet k v rest

/-- Javascript Map.delete (keys are unique, so dropping the first match). -/
def mapErase {α : Type} (k : String) : List (String × α) → List (String × α)
  | [] => []
  | (k1, v1) :: rest => if k1 = k then rest else (k1, v1) :: mapErase k rest

/-- Entity: id, component map keyed by kind name, tag set (a Javascript Set,
modelled as an insertion-ordered duplicate-free list). -/
structure Entity where
  id : String
  components : List (String × Comp)
  tags : List String
  deriving DecidableEq

/-- Entity.addComponent: Map.set (silently replacing any component already
stored under the kind), then invoke init on the new component when it defines
one.  Returns the updated entity and the lifecycle events emitted. -/
def Entity.addComponent (k : String) (comp : Comp) (e : Entity) : Entity × List CompEvent :=
  ({ e with components := mapSet k comp e.components },
   if comp.hasInit then [CompEvent.initCall comp.cid] else [])

/-- Entity.addTag: Set.add. -/
def Entity.addTag (t : String) (e : Entity) : Entity :=
  if t ∈ e.tags then e else { e with tags := e.tags ++ [t] }

/-- Entity.destroy: invoke destroy on every component defining one, then clear
the component map and the tag set. -/
def Entity.destroy (e : Entity) : Entity × List CompEvent :=
  ({ e with components := [], tags := [] },
   e.components.filterMap (fun p => if p.2.hasDestroy then some (CompEvent.destroyCall p.2.cid) else Option.none))

/-- EntityManager: the id index and the tag index.  In the source the tag
index holds Set references to Entity objects; object identity is modelled by
the entity id (the failing inputs below never reuse an id). -/
structure EntityManager where
  entities : List (String × Entity)
  entitiesByTag : List (String × List String)
  deriving DecidableEq

def EntityManager.empty : EntityManager := { entities := [], entitiesByTag := [] }

/-- EntityManager.createEntity with a caller-supplied id: construct a fresh
entity and Map.set it into the id index (no duplicate-id guard in the
source). -/
def EntityManager.createEntity (m : EntityManager) (id : String) : Entity × EntityManager :=
  let e : Entity := { id := id, components := [], tags := [] }
  (e, { m with entities := mapSet id e m.entities })

def EntityManager.getEntity (m : EntityManager) (id : String) : Option Entity :=
  mapGet id m.entities

/-- EntityManager.removeEntity: when the id is present, destroy the entity and
delete it from the id index, returning true; the tag index is not touched by
the source.  Also returns the teardown events. -/
def EntityManager.removeEntity (m : EntityManager) (id : String) :
    Bool × EntityManager × List CompEvent :=
  match mapGet id m.entities with
  | some e =>
      let d := Entity.destroy e
      (true, { m with entities := mapErase id m.entities }, d.2)
  | Option.none => (false, m, [])

/-- EntityManager.addTagToEntity: add the tag to the entity (the source takes
the Entity object; here the id of an entity stored in the registry) and insert
it into the tag index, creating the Set on first use. -/
def EntityManager.addTagToEntity (m : EntityManager) (id : String) (tag : String) :
    EntityManager :=
  let entities1 :=
    match mapGet id m.entities with
    | some e => mapSet id (Entity.addTag tag e) m.entities
    | Option.none => m.entities
  let idx :=
    match mapGet tag m.entitiesByTag with
    | some l => mapSet tag (if id ∈ l then l else l ++ [id]) m.entitiesByTag
    | Option.none => mapSet tag [id] m.entitiesByTag
  { entities := entities1, entitiesByTag := idx }

/-- EntityManager.getEntitiesByTag: snapshot of the tag Set, empty when the
tag is unknown. -/
def EntityManager.getEntitiesByTag (m : EntityManager) (tag : String) : List String :=
  match mapGet tag m.entitiesByTag with
  | some l => l
  | Option.none => []

/-- TowerStats record. -/
structure TowerStats where
  health : ℚ
  maxHealth : ℚ
  attack : ℚ
  defense : ℚ
  attackRange : ℚ
  attackSpeed : ℚ
  lastAttackTime : ℚ
  deriving DecidableEq

/-- Simulation state of TowerComponent.  The registered targets are
CharacterComponent references, modelled as indices into the world character
list below. -/
structure Tower where
  stats : TowerStats
  position : Vec3
  isDead : Bool
  teamId : Nat
  lane : Nat
  targets : List Nat
  currentTarget : Option Nat
  deriving DecidableEq

/-- TowerComponent.initializeStats. -/
def TowerComponent.initializeStats : TowerStats :=
  { health := 1000, maxHealth := 1000, attack := 50, defense := 20,
    attackRange := 10, attackSpeed := 1, lastAttackTime := 0 }

/-- A freshly constructed TowerComponent. -/
def TowerComponent.initTower (pos : Vec3) (teamId lane : Nat) : Tower :=
  { stats := TowerComponent.initializeStats, position := pos, isDead := false,
    teamId := teamId, lane := lane, targets := [], currentTarget := Option.none }

/-- A tower together with the characters its target references point into. -/
structure TowerWorld where
  tower : Tower
  chars : List Character
  deriving DecidableEq

/-- Dereference a stored character reference (total, with an arbitrary default
never relied upon by the theorems). -/
def TowerWorld.charAt (w : TowerWorld) (i : Nat) : Character :=
  w.chars.getD i (CharacterComponent.initializeStats CharacterRace.bellato ⟨0, 0, 0⟩)

/-- TowerComponent.registerTarget: no-op when the tower is dead or the target
is already registered; otherwise append it, and make it current when there is
no current target or the current one is dead. -/
def TowerComponent.registerTarget (w : TowerWorld) (i : Nat) : TowerWorld :=
  if w.tower.isDead then w
  else if i ∈ w.tower.targets then w
  else
    let targets1 := w.tower.targets ++ [i]
    let cur1 :=
      match w.tower.currentTarget with
      | Option.none => some i
      | some j => if (w.charAt j).isDead then some i else some j
    { w with tower := { w.tower with targets := targets1, currentTarget := cur1 } }

/-- TowerComponent.unregisterTarget: splice out the first occurrence; when the
removed target was current, promote the first remaining candidate (or none). -/
def TowerComponent.unregisterTarget (w : TowerWorld) (i : Nat) : TowerWorld :=
  if i ∈ w.tower.targets then
    let targets1 := w.tower.targets.erase i
    let cur1 :=
      if w.tower.currentTarget = some i then targets1.head?
      else w.tower.currentTarget
    { w with tower := { w.tower with targets := targets1, currentTarget := cur1 } }
  else w

/-- TowerComponent.findTargets: the source resets the candidate list and the
current target and leaves the scan unimplemented. -/
def TowerComponent.findTargets (w : TowerWorld) : TowerWorld :=
  { w with tower := { w.tower with targets := [], currentTarget := Option.none } }

/-- TowerComponent.attackTarget: skipped when there is no live current target;
otherwise, when the wall-clock time now (performance.now in seconds — the dt
argument is ignored by the source) is at least 1/attackSpeed past the last
attack, deal attack damage to the current target and stamp lastAttackTime. -/
def TowerComponent.attackTarget (_dt now : ℚ) (w : TowerWorld) : TowerWorld :=
  match w.tower.currentTarget with
  | Option.none => w
  | some j =>
      if (w.charAt j).isDead then w
      else if now - w.tower.stats.lastAttackTime ≥ 1 / w.tower.stats.attackSpeed then
        { w with
            chars := w.chars.set j (CharacterComponent.takeDamage w.tower.stats.attack (w.charAt j)),
            tower := { w.tower with stats := { w.tower.stats with lastAttackTime := now } } }
      else w

/-- TowerComponent.update: no-op when dead, else findTargets then
attackTarget. -/
def TowerComponent.update (dt now : ℚ) (w : TowerWorld) : TowerWorld :=
  if w.tower.isDead then w
  else TowerComponent.attackTarget dt now (TowerComponent.findTargets w)

/-- Apply CharacterComponent.takeDamage to character j of the world (a combat
step taken by any attacker). -/
def TowerWorld.damageChar (w : TowerWorld) (j : Nat) (amount : ℚ) : TowerWorld :=
  { w with chars := w.chars.set j (CharacterComponent.takeDamage amount (w.charAt j)) }

/-- States reachable from a freshly constructed tower and freshly constructed
characters by registerTarget, unregisterTarget, tower update and character
takeDamage steps. -/
inductive TowerReachable : TowerWorld → Prop where
  | init (pos : Vec3) (team lane : Nat) (cs : List (CharacterRace × Vec3)) :
      TowerReachable
        { tower := TowerComponent.initTower pos team lane,
          chars := cs.map (fun p => CharacterComponent.initializeStats p.1 p.2) }
  | register (w : TowerWorld) (i : Nat) :
      TowerReachable w → TowerReachable (TowerComponent.registerTarget w i)
  | unregister (w : TowerWorld) (i : Nat) :
      TowerReachable w → TowerReachable (TowerComponent.unregisterTarget w i)
  | step (w : TowerWorld) (dt now : ℚ) :
      TowerReachable w → TowerReachable (TowerComponent.update dt now w)
  | damage (w : TowerWorld) (j : Nat) (amount : ℚ) :
      TowerReachable w → TowerReachable (w.damageChar j amount)

/-- A takeDamage or heal call with its amount. -/
inductive CharOp where
  | damage (amount : ℚ)
  | heal (amount : ℚ)
  deriving DecidableEq

def CharOp.amount : CharOp → ℚ
  | CharOp.damage a => a
  | CharOp.heal a => a

def applyCharOp (op : CharOp) (c : Character) : Character :=
  match op with
  | CharOp.damage a => CharacterComponent.takeDamage a c
  | CharOp.heal a => CharacterComponent.heal a c

/-- Run a finite sequence of takeDamage/heal calls. -/
def runCharOps (ops : List CharOp) (c : Character) : Character :=
  ops.foldl (fun c op => applyCharOp op c) c

/-- The health part of the data-model invariant: health in [0, maxHealth] and
a character at 0 health carries the death flag. -/
def HealthValid (c : Character) : Prop :=
  0 ≤ c.health ∧ c.health ≤ c.maxHealth ∧ (c.health = 0 → c.isDead = true)

instance : DecidablePred HealthValid := fun c => by
  unfold HealthValid; infer_instance

/-- The observables named by the update(0) idempotence claim for a character,
other than the movement intent: stats, position and the death flag. -/
def charObs (c : Character) :
    ℚ × ℚ × ℚ × ℚ × ℚ × ℚ × ℚ × ℚ × ℚ × Vec3 × Bool :=
  (c.health, c.maxHealth, c.mana, c.maxMana, c.attack, c.defense, c.speed,
   c.level, c.experience, c.position, c.isDead)

/-- Whether the character has a movement target within the 0.1 stop epsilon of
moveTowards (squared-distance comparison, as in moveTowards). -/
def withinStopEpsilon (c : Character) : Bool :=
  match c.targetPosition with
  | some tp =>
      decide ((tp.x - c.position.x) * (tp.x - c.position.x) +
              (tp.z - c.position.z) * (tp.z - c.position.z) < 1 / 100)
  | Option.none => false

/-- A Bellato character spawned at the origin, moving to a point 1/20 = 0.05
units away, below the 0.1 stop epsilon. -/
def c7NearTarget : Character :=
  { CharacterComponent.initializeStats CharacterRace.bellato ⟨0, 0, 0⟩ with
      isMoving := true, targetPosition := some ⟨1 / 20, 0, 0⟩ }

/-- A freshly spawned Bellato character (defense 5, mana 100). -/
def c4Owner : Character :=
  CharacterComponent.initializeStats CharacterRace.bellato ⟨0, 0, 0⟩

/-- Activating a fresh shield generator on its Bellato owner. -/
def c4Activation : Bool × AbilityState ShieldGeneratorState × Character :=
  Ability.activate shieldGeneratorData ShieldGeneratorAbility.canActivate
    (ShieldGeneratorAbility.performEffect shieldGeneratorData) shieldGeneratorInit c4Owner

/-- One update step of dt = 5 seconds (the full buff duration) after the
activation. -/
def c4AfterUpdate : AbilityState ShieldGeneratorState × Character :=
  Ability.update shieldGeneratorData ShieldGeneratorAbility.updateActiveEffect 5
    c4Activation.2.1 c4Activation.2.2

/-- A second update of dt = 5 after the first. -/
def c4AfterTwoUpdates : AbilityState ShieldGeneratorState × Character :=
  Ability.update shieldGeneratorData ShieldGeneratorAbility.updateActiveEffect 5
    c4AfterUpdate.1 c4AfterUpdate.2

/-- A registry holding one entity e1 carrying tag t. -/
def c3Manager : EntityManager :=
  EntityManager.addTagToEntity (EntityManager.createEntity EntityManager.empty "e1").2 "e1" "t"

/-- The result of removing e1 from that registry. -/
def c3Removal : Bool × EntityManager × List CompEvent :=
  EntityManager.removeEntity c3Manager "e1"

/-- A registry holding one entity under id a, carrying tag x. -/
def c9Before : EntityManager :=
  EntityManager.addTagToEntity (EntityManager.createEntity EntityManager.empty "a").2 "a" "x"

/-- Creating a second entity under the already-live id a. -/
def c9After : Entity × EntityManager :=
  EntityManager.createEntity c9Before "a"

/-- A dead Bellato character and a tower registering it: the world reached by
spawning one Bellato character, killing it with 200 damage, and then calling
registerTarget on it. -/
def c8DeadWorld : TowerWorld :=
  TowerComponent.registerTarget
    (TowerWorld.damageChar
      { tower := TowerComponent.initTower ⟨0, 0, 0⟩ 0 0,
        chars := [(CharacterRace.bellato, (⟨0, 0, 0⟩ : Vec3))].map
          (fun p => CharacterComponent.initializeStats p.1 p.2) }
      0 200)
    0

theorem takeDamage_of_dead (a : ℚ) (c : Character) (h : c.isDead = true) :
    CharacterComponent.takeDamage a c = c := by
  simp [CharacterComponent.takeDamage, h]

theorem heal_of_dead (a : ℚ) (c : Character) (h : c.isDead = true) :
    CharacterComponent.heal a c = c := by
  simp [CharacterComponent.heal, h]

theorem applyCharOp_of_dead (op : CharOp) (c : Character) (h : c.isDead = true) :
    applyCharOp op c = c := by
  cases op with
  | damage a => exact takeDamage_of_dead a c h
  | heal a => exact heal_of_dead a c h

theorem runCharOps_of_dead (ops : List CharOp) (c : Character) (h : c.isDead = true) :
    runCharOps ops c = c := by
  induction ops with
  | nil => rfl
  | cons op rest ih =>
      show runCharOps rest (applyCharOp op c) = c
      rw [applyCharOp_of_dead op c h]
      exact ih

theorem runCharOps_append (l1 l2 : List CharOp) (c : Character) :
    runCharOps (l1 ++ l2) c = runCharOps l2 (runCharOps l1 c) := by
  simp [runCharOps, List.foldl_append]

theorem healthValid_takeDamage (a : ℚ) (c : Character) (ha : 0 ≤ a)
    (hc : HealthValid c) : HealthValid (CharacterComponent.takeDamage a c) := by
  obtain ⟨h0, h1, h2⟩ := hc
  unfold HealthValid CharacterComponent.takeDamage
  split
  · exact ⟨h0, h1, h2⟩
  · split
    · refine ⟨le_refl 0, ?_, fun _ => rfl⟩
      simpa using h0.trans h1
    · next hgt =>
        push_neg at hgt
        refine ⟨?_, ?_, ?_⟩
        · simpa using le_of_lt hgt
        · simpa using le_trans (by linarith : c.health - a ≤ c.health) h1
        · intro hz
          simp at hz
          linarith

theorem healthValid_heal (a : ℚ) (c : Character) (ha : 0 ≤ a)
    (hc : HealthValid c) : HealthValid (CharacterComponent.heal a c) := by
  obtain ⟨h0, h1, h2⟩ := hc
  unfold HealthValid CharacterComponent.heal
  split
  · exact ⟨h0, h1, h2⟩
  · split
    · refine ⟨?_, ?_, ?_⟩
      · simpa using h0.trans h1
      · simp
      · intro hz
        simp at hz
        exact h2 (le_antisymm (by linarith) h0)
    · next h3 h4 =>
        push_neg at h4
        refine ⟨?_, ?_, ?_⟩
        · simpa using add_nonneg h0 ha
        · simpa using h4
        · intro hz
          simp at hz
          exact h2 (by linarith)

theorem healthValid_applyCharOp (op : CharOp) (c : Character) (ha : 0 ≤ op.amount)
    (hc : HealthValid c) : HealthValid (applyCharOp op c) := by
  cases op with
  | damage a => exact healthValid_takeDamage a c ha hc
  | heal a => exact healthValid_heal a c ha hc

theorem healthValid_runCharOps (ops : List CharOp) (c : Character)
    (hops : ∀ op ∈ ops, 0 ≤ op.amount) (hc : HealthValid c) :
    HealthValid (runCharOps ops c) := by
  induction ops generalizing c with
  | nil => exact hc
  | cons op rest ih =>
      show HealthValid (runCharOps rest (applyCharOp op c))
      exact ih (applyCharOp op c)
        (fun o ho => hops o (List.mem_cons_of_mem op ho))
        (healthValid_applyCharOp op c (hops op (List.mem_cons_self op rest)) hc)

/-- Claim C1: for every character and every finite sequence of takeDamage and
heal calls with non-negative amounts, starting from a state satisfying the
health invariant, health stays within [0, maxHealth]; and once the death flag
is set at some prefix of the sequence (takeDamage sets it exactly when health
reaches 0), every subsequent call is a no-op, leaving the whole state — in
particular health and the death flag — unchanged. -/
theorem character_health_invariant (ops : List CharOp) (c : Character)
    (hops : ∀ op ∈ ops, 0 ≤ op.amount) (hc : HealthValid c) :
    HealthValid (runCharOps ops c) ∧
    (∀ l1 l2, ops = l1 ++ l2 → (runCharOps l1 c).isDead = true →
      runCharOps ops c = runCharOps l1 c ∧ (runCharOps ops c).isDead = true) := by
  refine ⟨healthValid_runCharOps ops c hops hc, ?_⟩
  intro l1 l2 hsplit hdead
  subst hsplit
  have h1 : runCharOps (l1 ++ l2) c = runCharOps l1 c := by
    rw [runCharOps_append]
    exact runCharOps_of_dead l2 _ hdead
  exact ⟨h1, by rw [h1]; exact hdead⟩

/-- Witness for C1 at a concrete input: a fresh Bellato character and the
sequence takeDamage 30 then heal 10. -/
theorem character_health_invariant_witness :
    (∀ op ∈ [CharOp.damage 30, CharOp.heal 10], 0 ≤ op.amount) ∧
    HealthValid (CharacterComponent.initializeStats CharacterRace.bellato ⟨0, 0, 0⟩) ∧
    HealthValid (runCharOps [CharOp.damage 30, CharOp.heal 10]
      (CharacterComponent.initializeStats CharacterRace.bellato ⟨0, 0, 0⟩)) :=
  ⟨by decide, by decide,
   (character_health_invariant [CharOp.damage 30, CharOp.heal 10]
      (CharacterComponent.initializeStats CharacterRace.bellato ⟨0, 0, 0⟩)
      (by decide) (by decide)).1⟩

/-- Claim C2: Ability.activate returns true exactly when the remaining
cooldown is 0 (it is never negative in reachable states, hence the
hypothesis), the owner has at least manaCost mana, and the ability-specific
precondition accepts; on false it mutates nothing, and on true it deducts
exactly manaCost and sets the cooldown to data.cooldown.  The hypothesis on
perform — the subclass effect never touches the owner mana — holds for every
ability class in the repository (their effects damage the target, buff
defense, or spawn visuals). -/
theorem ability_activate_contract {σ : Type} (data : AbilityData)
    (canAct : σ → Character → Bool) (perform : σ → Character → σ × Character)
    (st : AbilityState σ) (o : Character)
    (hrc : 0 ≤ st.remainingCooldown)
    (hM : ∀ s c, (perform s c).2.mana = c.mana) :
    ((Ability.activate data canAct perform st o).1 = true ↔
      st.remainingCooldown = 0 ∧ data.manaCost ≤ o.mana ∧ canAct st.eff o = true) ∧
    ((Ability.activate data canAct perform st o).1 = false →
      (Ability.activate data canAct perform st o).2.1 = st ∧
      (Ability.activate data canAct perform st o).2.2 = o) ∧
    ((Ability.activate data canAct perform st o).1 = true →
      (Ability.activate data canAct perform st o).2.2.mana = o.mana - data.manaCost ∧
      (Ability.activate data canAct perform st o).2.1.remainingCooldown = data.cooldown) := by
  unfold Ability.activate
  split_ifs with h1 h2 h3
  · refine ⟨⟨fun h => by simp at h, ?_⟩, fun _ => ⟨rfl, rfl⟩, fun h => by simp at h⟩
    rintro ⟨hz, -, -⟩
    rw [hz] at h1
    exact absurd h1 (lt_irrefl 0)
  · refine ⟨⟨fun h => by simp at h, ?_⟩, fun _ => ⟨rfl, rfl⟩, fun h => by simp at h⟩
    rintro ⟨-, hge, -⟩
    exact absurd h2 (not_lt.mpr hge)
  · refine ⟨⟨fun h => by simp at h, ?_⟩, fun _ => ⟨rfl, rfl⟩, fun h => by simp at h⟩
    rintro ⟨-, -, hca⟩
    rw [hca] at h3
    exact absurd h3 (by simp)
  · have hrc0 : st.remainingCooldown = 0 := le_antisymm (not_lt.mp h1) hrc
    have hge : data.manaCost ≤ o.mana := not_lt.mp h2
    have hca : canAct st.eff o = true := by
      revert h3
      cases canAct st.eff o <;> simp
    rcases htype : data.type with _ | _ | _
    all_goals simp only [htype]
    · exact ⟨⟨fun _ => ⟨hrc0, hge, hca⟩, fun _ => by trivial⟩,
        fun h => by simp at h,
        fun _ => ⟨hM st.eff { o with mana := o.mana - data.manaCost }, by trivial⟩⟩
    · exact ⟨⟨fun _ => ⟨hrc0, hge, hca⟩, fun _ => by trivial⟩,
        fun h => by simp at h,
        fun _ => ⟨by trivial, by trivial⟩⟩
    · exact ⟨⟨fun _ => ⟨hrc0, hge, hca⟩, fun _ => by trivial⟩,
        fun h => by simp at h,
        fun _ => ⟨by trivial, by trivial⟩⟩

/-- Witness for C2: the freshly created shield generator activated by a fresh
Cora character (mana 120, cost 30, cooldown 0, precondition always true). -/
theorem ability_activate_contract_witness :
    (0 : ℚ) ≤ shieldGeneratorInit.remainingCooldown ∧
    ((Ability.activate shieldGeneratorData ShieldGeneratorAbility.canActivate
        (ShieldGeneratorAbility.performEffect shieldGeneratorData) shieldGeneratorInit
        (CharacterComponent.initializeStats CharacterRace.cora ⟨0, 0, 0⟩)).1 = true ↔
      shieldGeneratorInit.remainingCooldown = 0 ∧
      shieldGeneratorData.manaCost ≤
        (CharacterComponent.initializeStats CharacterRace.cora ⟨0, 0, 0⟩).mana ∧
      ShieldGeneratorAbility.canActivate shieldGeneratorInit.eff
        (CharacterComponent.initializeStats CharacterRace.cora ⟨0, 0, 0⟩) = true) :=
  ⟨by decide,
   (ability_activate_contract shieldGeneratorData ShieldGeneratorAbility.canActivate
      (ShieldGeneratorAbility.performEffect shieldGeneratorData) shieldGeneratorInit
      (CharacterComponent.initializeStats CharacterRace.cora ⟨0, 0, 0⟩)
      (by decide) (fun s c => rfl)).1⟩

/-- Claim C3 (divergence witness): in the registry holding entity e1 tagged t,
removeEntity returns true and removes e1 from the id index, yet e1 still
appears in getEntitiesByTag t — the source never removes a destroyed entity
from the tag index. -/
theorem removed_entity_remains_in_tag_index :
    c3Removal.1 = true ∧
    EntityManager.getEntity c3Removal.2.1 "e1" = Option.none ∧
    "e1" ∈ EntityManager.getEntitiesByTag c3Removal.2.1 "t" := by
  decide

/-- Claim C4 (divergence witness): activating the shield generator on a fresh
Bellato owner (defense 5) succeeds and floors the defense to 7, but because
activate resets the active flag before returning for Active-kind abilities,
update never invokes the ongoing-effect hook: after update steps of dt = 5
and even 10 seconds total (duration is 5), the defense is still 7, the buff
is still flagged active and its duration counter has never been decremented —
the recorded original value 5 is never restored. -/
theorem shield_buff_never_reverts :
    c4Activation.1 = true ∧
    c4Activation.2.2.defense = 7 ∧
    c4Activation.2.1.isActive = false ∧
    c4AfterUpdate.2.defense = 7 ∧
    c4AfterUpdate.1.eff.buffDuration = 5 ∧
    c4AfterUpdate.1.eff.buffActive = true ∧
    c4AfterTwoUpdates.2.defense = 7 ∧
    ¬ c4AfterUpdate.2.defense = c4Owner.defense := by
  norm_num [c4Activation, c4AfterUpdate, c4AfterTwoUpdates, c4Owner,
    Ability.activate, Ability.update, ShieldGeneratorAbility.performEffect,
    ShieldGeneratorAbility.canActivate, ShieldGeneratorAbility.updateActiveEffect,
    shieldGeneratorData, shieldGeneratorInit, jsOrDefault,
    CharacterComponent.initializeStats]

/-- Claim C5 (counterexample): with level 1 and experience 95, gaining 10
experience leaves experience 0 after the level-up, not 5 — levelUp resets the
counter to zero instead of carrying the overflow. -/
theorem gain_experience_resets_to_zero_not_five :
    (CharacterComponent.gainExperience 10
      { CharacterComponent.initializeStats CharacterRace.bellato ⟨0, 0, 0⟩ with
          experience := 95 }).experience = 0 ∧
    ¬ (CharacterComponent.gainExperience 10
      { CharacterComponent.initializeStats CharacterRace.bellato ⟨0, 0, 0⟩ with
          experience := 95 }).experience = 5 := by
  norm_num [CharacterComponent.gainExperience, CharacterComponent.levelUp,
    CharacterComponent.initializeStats]

/-- Claim C5 as amended: for a character with level 1 and experience 95,
gainExperience 10 triggers the level-up: experience becomes 0 (reset, not the
overflow 5), level becomes 2, maxHealth grows by 20 and health is fully
restored to the new maximum. -/
theorem gain_experience_level_up_amended (c : Character)
    (hl : c.level = 1) (he : c.experience = 95) :
    (CharacterComponent.gainExperience 10 c).experience = 0 ∧
    (CharacterComponent.gainExperience 10 c).level = 2 ∧
    (CharacterComponent.gainExperience 10 c).maxHealth = c.maxHealth + 20 ∧
    (CharacterComponent.gainExperience 10 c).health =
      (CharacterComponent.gainExperience 10 c).maxHealth := by
  have hcond : (100 : ℚ) ≤ 95 + 10 := by norm_num
  refine ⟨?_, ?_, ?_, ?_⟩ <;>
    simp [CharacterComponent.gainExperience, CharacterComponent.levelUp, hl, he, hcond] <;>
    norm_num

/-- Witness for the amended C5 at a concrete input: a fresh Bellato character
with its experience set to 95. -/
theorem gain_experience_level_up_amended_witness :
    ({ CharacterComponent.initializeStats CharacterRace.bellato ⟨0, 0, 0⟩ with
        experience := 95 } : Character).level = 1 ∧
    (CharacterComponent.gainExperience 10
      { CharacterComponent.initializeStats CharacterRace.bellato ⟨0, 0, 0⟩ with
          experience := 95 }).level = 2 :=
  ⟨by decide,
   (gain_experience_level_up_amended
      { CharacterComponent.initializeStats CharacterRace.bellato ⟨0, 0, 0⟩ with
          experience := 95 } (by decide) (by decide)).2.1⟩

/-- Claim C6: a living attacker deals exactly max(1, attack - target.defense)
damage to the target via takeDamage; with attack 10 against defense 3 a
living target with at least 7 health loses exactly 7 health, and with attack
2 against defense 10 a living target with at least 1 health loses exactly 1
health (the floor). -/
theorem attack_damage_formula (a t : Character) (ha : a.isDead = false) :
    CharacterComponent.attack a t =
      CharacterComponent.takeDamage (max 1 (a.attack - t.defense)) t ∧
    (a.attack = 10 → t.defense = 3 → t.isDead = false → 7 ≤ t.health →
      (CharacterComponent.attack a t).health = t.health - 7) ∧
    (a.attack = 2 → t.defense = 10 → t.isDead = false → 1 ≤ t.health →
      (CharacterComponent.attack a t).health = t.health - 1) := by
  have h1 : CharacterComponent.attack a t =
      CharacterComponent.takeDamage (max 1 (a.attack - t.defense)) t := by
    simp [CharacterComponent.attack, ha]
  refine ⟨h1, ?_, ?_⟩
  · intro h10 h3 htd hh
    have hmax : max 1 (a.attack - t.defense) = 7 := by
      rw [h10, h3]; norm_num
    rw [h1, hmax]
    unfold CharacterComponent.takeDamage
    rw [if_neg (by simp [htd])]
    by_cases hle : t.health - 7 ≤ 0
    · rw [if_pos hle]
      simp
      linarith
    · rw [if_neg hle]
  · intro h2 h10 htd hh
    have hmax : max 1 (a.attack - t.defense) = 1 := by
      rw [h2, h10]; norm_num
    rw [h1, hmax]
    unfold CharacterComponent.takeDamage
    rw [if_neg (by simp [htd])]
    by_cases hle : t.health - 1 ≤ 0
    · rw [if_pos hle]
      simp
      linarith
    · rw [if_neg hle]

/-- Witness for C6 at a concrete input: a fresh Bellato attacker (attack 10)
against a Cora target with defense 3 and health 80 loses exactly 7 health. -/
theorem attack_damage_formula_witness :
    (CharacterComponent.initializeStats CharacterRace.bellato ⟨0, 0, 0⟩).isDead = false ∧
    (CharacterComponent.attack
      (CharacterComponent.initializeStats CharacterRace.bellato ⟨0, 0, 0⟩)
      (CharacterComponent.initializeStats CharacterRace.cora ⟨1, 0, 0⟩)).health =
      (CharacterComponent.initializeStats CharacterRace.cora ⟨1, 0, 0⟩).health - 7 :=
  ⟨by decide,
   (attack_damage_formula
      (CharacterComponent.initializeStats CharacterRace.bellato ⟨0, 0, 0⟩)
      (CharacterComponent.initializeStats CharacterRace.cora ⟨1, 0, 0⟩)
      (by decide)).2.1 (by decide) (by decide) (by decide) (by decide)⟩

theorem regenerateMana_zero (c : Character) (hm : c.mana ≤ c.maxMana) :
    CharacterComponent.regenerateMana 0 c = c := by
  unfold CharacterComponent.regenerateMana
  have h : c.mana + c.maxMana * (2 / 100) * 0 = c.mana := by ring
  rw [h, min_eq_left hm]

theorem moveTowards_zero_eps (unit : Vec3 → Vec3) (tp : Vec3) (c : Character)
    (h : (tp.x - c.position.x) * (tp.x - c.position.x) +
        (tp.z - c.position.z) * (tp.z - c.position.z) < 1 / 100) :
    CharacterComponent.moveTowards unit tp 0 c =
      { c with isMoving := false, targetPosition := Option.none } := by
  unfold CharacterComponent.moveTowards
  rw [if_pos h]

theorem moveTowards_zero_far (unit : Vec3 → Vec3) (tp : Vec3) (c : Character)
    (h : ¬ ((tp.x - c.position.x) * (tp.x - c.position.x) +
        (tp.z - c.position.z) * (tp.z - c.position.z) < 1 / 100)) :
    CharacterComponent.moveTowards unit tp 0 c = c := by
  unfold CharacterComponent.moveTowards
  rw [if_neg h]
  have hv : Vec3.add c.position
      (Vec3.scale (c.speed * 0)
        (unit ⟨tp.x - c.position.x, 0, tp.z - c.position.z⟩)) = c.position := by
    simp [Vec3.add, Vec3.scale]
  rw [hv]

theorem update_zero_char (unit : Vec3 → Vec3) (c : Character) (hm : c.mana ≤ c.maxMana) :
    charObs (CharacterComponent.update unit 0 c) = charObs c ∧
    ((CharacterComponent.update unit 0 c).isMoving,
      (CharacterComponent.update unit 0 c).targetPosition) =
      (if c.isDead = false ∧ c.isMoving = true ∧ withinStopEpsilon c = true
       then ((false : Bool), (Option.none : Option Vec3))
       else (c.isMoving, c.targetPosition)) := by
  by_cases hd : c.isDead
  · have hu : CharacterComponent.update unit 0 c = c := by
      simp [CharacterComponent.update, hd]
    rw [hu]
    refine ⟨rfl, ?_⟩
    rw [if_neg]
    rintro ⟨h1, -, -⟩
    simp [h1] at hd
  · have hd' : c.isDead = false := by
      revert hd; cases c.isDead <;> simp
    by_cases hmv : c.isMoving
    · cases htp : c.targetPosition with
      | none =>
          have hu : CharacterComponent.update unit 0 c =
              CharacterComponent.regenerateMana 0 c := by
            simp [CharacterComponent.update, hd', hmv, htp]
          rw [hu, regenerateMana_zero c hm]
          refine ⟨rfl, ?_⟩
          rw [if_neg, htp]
          rintro ⟨-, -, hw⟩
          simp [withinStopEpsilon, htp] at hw
      | some tp =>
          by_cases heps : (tp.x - c.position.x) * (tp.x - c.position.x) +
              (tp.z - c.position.z) * (tp.z - c.position.z) < 1 / 100
          · have hu : CharacterComponent.update unit 0 c =
                CharacterComponent.regenerateMana 0
                  { c with isMoving := false, targetPosition := Option.none } := by
              simp [CharacterComponent.update, hd', hmv, htp,
                moveTowards_zero_eps unit tp c heps]
            rw [hu, regenerateMana_zero _ (by simpa using hm)]
            refine ⟨rfl, ?_⟩
            rw [if_pos ⟨hd', by simpa using hmv,
              by simp [withinStopEpsilon, htp]; linarith [heps]⟩]
          · have hu : CharacterComponent.update unit 0 c =
                CharacterComponent.regenerateMana 0 c := by
              simp [CharacterComponent.update, hd', hmv, htp,
                moveTowards_zero_far unit tp c heps]
            rw [hu, regenerateMana_zero c hm]
            refine ⟨rfl, ?_⟩
            rw [if_neg, htp]
            rintro ⟨-, -, hw⟩
            simp [withinStopEpsilon, htp] at hw
            exact heps (by linarith [hw])
    · have hmv' : c.isMoving = false := by
        revert hmv; cases c.isMoving <;> simp
      have hu : CharacterComponent.update unit 0 c =
          CharacterComponent.regenerateMana 0 c := by
        simp [CharacterComponent.update, hd', hmv']
      rw [hu, regenerateMana_zero c hm]
      refine ⟨rfl, ?_⟩
      rw [if_neg]
      rintro ⟨-, h2, -⟩
      simp [h2] at hmv'

theorem update_zero_shield (data : AbilityData) (st : AbilityState ShieldGeneratorState)
    (o : Character) (hA : st.isActive = false) :
    Ability.update data ShieldGeneratorAbility.updateActiveEffect 0 st o = (st, o) := by
  unfold Ability.update
  rw [if_neg]
  · have hrc : (if 0 < st.remainingCooldown then
          (if st.remainingCooldown - 0 < 0 then (0 : ℚ) else st.remainingCooldown - 0)
        else st.remainingCooldown) = st.remainingCooldown := by
      rcases lt_or_le 0 st.remainingCooldown with h | h
      · rw [if_pos h, sub_zero, if_neg (not_lt.mpr h.le)]
      · rw [if_neg (not_lt.mpr h)]
    rw [hrc]
  · rintro ⟨h1, -⟩
    simp [h1] at hA

theorem update_zero_tower (dt now : ℚ) (w : TowerWorld) :
    (TowerComponent.update dt now w).tower.stats = w.tower.stats ∧
    (TowerComponent.update dt now w).tower.position = w.tower.position ∧
    (TowerComponent.update dt now w).tower.isDead = w.tower.isDead ∧
    (TowerComponent.update dt now w).chars = w.chars := by
  unfold TowerComponent.update TowerComponent.attackTarget TowerComponent.findTargets
  split
  · exact ⟨rfl, rfl, rfl, rfl⟩
  · exact ⟨rfl, rfl, rfl, rfl⟩

/-- Claim C7 (counterexample): a living Bellato character moving to a point
1/20 = 0.05 units away (inside the 0.1 stop epsilon) has its movement intent
cleared by update with dt = 0 — update(0) is not observationally idempotent. -/
theorem update_zero_clears_movement_intent :
    c7NearTarget.isMoving = true ∧
    (CharacterComponent.update (fun v => v) 0 c7NearTarget).isMoving = false ∧
    (CharacterComponent.update (fun v => v) 0 c7NearTarget).targetPosition =
      Option.none := by
  norm_num [c7NearTarget, CharacterComponent.update, CharacterComponent.moveTowards,
    CharacterComponent.regenerateMana, CharacterComponent.initializeStats]

/-- Claim C7 as amended: update(0) leaves stats, position, cooldowns, active
flags and death flags unchanged on characters, abilities and towers; the one
exception the counterexample forces is the movement intent of a living,
moving character within the 0.1 stop epsilon of its target, which update(0)
clears (otherwise the movement intent is unchanged too).  The character part
assumes mana ≤ maxMana (the data-model invariant); the ability part is stated
for the shield generator hook with the active flag down, the only state
Active-kind abilities ever show to update. -/
theorem update_zero_amended :
    (∀ (unit : Vec3 → Vec3) (c : Character), c.mana ≤ c.maxMana →
      charObs (CharacterComponent.update unit 0 c) = charObs c ∧
      ((CharacterComponent.update unit 0 c).isMoving,
        (CharacterComponent.update unit 0 c).targetPosition) =
        (if c.isDead = false ∧ c.isMoving = true ∧ withinStopEpsilon c = true
         then ((false : Bool), (Option.none : Option Vec3))
         else (c.isMoving, c.targetPosition))) ∧
    (∀ (data : AbilityData) (st : AbilityState ShieldGeneratorState) (o : Character),
      st.isActive = false →
      Ability.update data ShieldGeneratorAbility.updateActiveEffect 0 st o = (st, o)) ∧
    (∀ (dt now : ℚ) (w : TowerWorld),
      (TowerComponent.update dt now w).tower.stats = w.tower.stats ∧
      (TowerComponent.update dt now w).tower.position = w.tower.position ∧
      (TowerComponent.update dt now w).tower.isDead = w.tower.isDead ∧
      (TowerComponent.update dt now w).chars = w.chars) :=
  ⟨fun unit c hm => update_zero_char unit c hm,
   fun data st o hA => update_zero_shield data st o hA,
   fun dt now w => update_zero_tower dt now w⟩

/-- Witness for the amended C7 at a concrete input: a fresh Accretia character
at rest. -/
theorem update_zero_amended_witness :
    (CharacterComponent.initializeStats CharacterRace.accretia ⟨1, 0, 1⟩).mana ≤
      (CharacterComponent.initializeStats CharacterRace.accretia ⟨1, 0, 1⟩).maxMana ∧
    charObs (CharacterComponent.update (fun v => v) 0
      (CharacterComponent.initializeStats CharacterRace.accretia ⟨1, 0, 1⟩)) =
      charObs (CharacterComponent.initializeStats CharacterRace.accretia ⟨1, 0, 1⟩) :=
  ⟨by decide,
   (update_zero_amended.1 (fun v => v)
      (CharacterComponent.initializeStats CharacterRace.accretia ⟨1, 0, 1⟩) (by decide)).1⟩

theorem registerTarget_mem_invariant (w : TowerWorld) (j : Nat)
    (ih : ∀ i, w.tower.currentTarget = some i → i ∈ w.tower.targets) :
    ∀ i, (TowerComponent.registerTarget w j).tower.currentTarget = some i →
      i ∈ (TowerComponent.registerTarget w j).tower.targets := by
  intro i hi
  unfold TowerComponent.registerTarget at hi ⊢
  by_cases h1 : w.tower.isDead
  · rw [if_pos h1] at hi ⊢
    exact ih i hi
  · rw [if_neg h1] at hi ⊢
    by_cases h2 : j ∈ w.tower.targets
    · rw [if_pos h2] at hi ⊢
      exact ih i hi
    · rw [if_neg h2] at hi ⊢
      dsimp only at hi ⊢
      cases hcur : w.tower.currentTarget with
      | none =>
          rw [hcur] at hi
          simp only at hi
          have : j = i := by simpa using hi
          subst this
          simp
      | some k =>
          rw [hcur] at hi
          dsimp only at hi
          by_cases hdead : (w.charAt k).isDead
          · simp only [hdead, if_true] at hi
            have : j = i := by simpa using hi
            subst this
            simp
          · have hdead' : (w.charAt k).isDead = false := by
              revert hdead; cases (w.charAt k).isDead <;> simp
            rw [hdead'] at hi
            simp only [Bool.false_eq_true, if_false] at hi
            have : k = i := by simpa using hi
            subst this
            exact List.mem_append_left _ (ih k hcur)

theorem unregisterTarget_mem_invariant (w : TowerWorld) (j : Nat)
    (ih : ∀ i, w.tower.currentTarget = some i → i ∈ w.tower.targets) :
    ∀ i, (TowerComponent.unregisterTarget w j).tower.currentTarget = some i →
      i ∈ (TowerComponent.unregisterTarget w j).tower.targets := by
  intro i hi
  unfold TowerComponent.unregisterTarget at hi ⊢
  by_cases h1 : j ∈ w.tower.targets
  · rw [if_pos h1] at hi ⊢
    dsimp only at hi ⊢
    by_cases h2 : w.tower.currentTarget = some j
    · rw [if_pos h2] at hi
      cases herase : w.tower.targets.erase j with
      | nil => rw [herase] at hi; simp at hi
      | cons x xs =>
          rw [herase] at hi
          simp only [List.head?] at hi
          have : x = i := by simpa using hi
          subst this
          simp
    · rw [if_neg h2] at hi
      have hne : i ≠ j := by
        intro hij
        subst hij
        exact h2 hi
      exact (List.mem_erase_of_ne hne).mpr (ih i hi)
  · rw [if_neg h1] at hi ⊢
    exact ih i hi

theorem towerUpdate_mem_invariant (dt now : ℚ) (w : TowerWorld)
    (ih : ∀ i, w.tower.currentTarget = some i → i ∈ w.tower.targets) :
    ∀ i, (TowerComponent.update dt now w).tower.currentTarget = some i →
      i ∈ (TowerComponent.update dt now w).tower.targets := by
  intro i hi
  unfold TowerComponent.update at hi ⊢
  by_cases h1 : w.tower.isDead
  · rw [if_pos h1] at hi ⊢
    exact ih i hi
  · rw [if_neg h1] at hi ⊢
    unfold TowerComponent.attackTarget TowerComponent.findTargets at hi
    dsimp only at hi
    simp at hi

/-- Claim C8 (counterexample): registering a dead character on a fresh tower
makes it the current target — a reachable state whose current target is set
and dead, refuting the not-dead half of the invariant (registerTarget only
checks whether the previous current target is dead, never the new one, and a
later death never clears the current target). -/
theorem tower_current_target_can_be_dead :
    TowerReachable c8DeadWorld ∧
    c8DeadWorld.tower.currentTarget = some 0 ∧
    (c8DeadWorld.charAt 0).isDead = true := by
  refine ⟨TowerReachable.register _ 0 (TowerReachable.damage _ 0 200
    (TowerReachable.init ⟨0, 0, 0⟩ 0 0 [(CharacterRace.bellato, ⟨0, 0, 0⟩)])), ?_, ?_⟩
  · norm_num [c8DeadWorld, TowerComponent.registerTarget, TowerComponent.initTower,
      TowerComponent.initializeStats, TowerWorld.damageChar, TowerWorld.charAt,
      CharacterComponent.takeDamage, CharacterComponent.initializeStats]
  · norm_num [c8DeadWorld, TowerComponent.registerTarget, TowerComponent.initTower,
      TowerComponent.initializeStats, TowerWorld.damageChar, TowerWorld.charAt,
      CharacterComponent.takeDamage, CharacterComponent.initializeStats]

/-- Claim C8 as amended: in every state reachable by registerTarget,
unregisterTarget, tower update and character takeDamage steps, the current
target, when set, is a member of the registered-targets list; it is not
guaranteed to be alive. -/
theorem tower_current_target_membership (w : TowerWorld) (h : TowerReachable w) :
    ∀ i, w.tower.currentTarget = some i → i ∈ w.tower.targets := by
  induction h with
  | init pos team lane cs =>
      intro i hi
      simp [TowerComponent.initTower] at hi
  | register w j _ ih => exact registerTarget_mem_invariant w j ih
  | unregister w j _ ih => exact unregisterTarget_mem_invariant w j ih
  | step w dt now _ ih => exact towerUpdate_mem_invariant dt now w ih
  | damage w j amount _ ih => exact ih

/-- Witness for the amended C8 at a concrete reachable state: the world of the
counterexample, whose current target 0 is indeed registered. -/
theorem tower_current_target_membership_witness :
    c8DeadWorld.tower.currentTarget = some 0 ∧ 0 ∈ c8DeadWorld.tower.targets :=
  ⟨by decide,
   tower_current_target_membership c8DeadWorld
     (TowerReachable.register _ 0 (TowerReachable.damage _ 0 200
       (TowerReachable.init ⟨0, 0, 0⟩ 0 0 [(CharacterRace.bellato, ⟨0, 0, 0⟩)])))
     0 (by decide)⟩

theorem mapGet_mapSet_self {α : Type} (k : String) (v : α) (l : List (String × α)) :
    mapGet k (mapSet k v l) = some v := by
  induction l with
  | nil => simp [mapSet, mapGet]
  | cons p rest ih =>
      obtain ⟨k1, v1⟩ := p
      by_cases h : k1 = k
      · simp [mapSet, mapGet, h]
      · simp [mapSet, mapGet, h, ih]

theorem mapSet_keys_of_mem {α : Type} (k : String) (v : α) (l : List (String × α))
    (h : (mapGet k l).isSome = true) :
    (mapSet k v l).map Prod.fst = l.map Prod.fst := by
  induction l with
  | nil => simp [mapGet] at h
  | cons p rest ih =>
      obtain ⟨k1, v1⟩ := p
      by_cases hk : k1 = k
      · simp [mapSet, hk]
      · have h2 : (mapGet k rest).isSome = true := by
          simpa [mapGet, hk] using h
        simp [mapSet, hk, ih h2]

/-- Claim C9 (counterexample): the registry stores an entity under id a
carrying tag x; createEntity with the same id does not fail — it silently
replaces the stored entity with the freshly created empty one. -/
theorem create_entity_duplicate_replaces :
    EntityManager.getEntity c9Before "a" =
      some { id := "a", components := [], tags := ["x"] } ∧
    EntityManager.getEntity c9After.2 "a" =
      some { id := "a", components := [], tags := [] } ∧
    ¬ (EntityManager.getEntity c9After.2 "a" = EntityManager.getEntity c9Before "a") := by
  decide

/-- Claim C9 as amended: when a caller-supplied id collides with a live
entity, createEntity raises no error; it constructs a fresh empty entity and
overwrites the registry slot, so the id afterwards resolves to the fresh
entity (the old one is dropped without teardown). -/
theorem create_entity_duplicate_amended (m : EntityManager) (id : String) (e : Entity)
    (h : EntityManager.getEntity m id = some e) :
    (EntityManager.createEntity m id).1 =
      { id := id, components := [], tags := [] } ∧
    EntityManager.getEntity (EntityManager.createEntity m id).2 id =
      some { id := id, components := [], tags := [] } := by
  refine ⟨rfl, ?_⟩
  unfold EntityManager.getEntity EntityManager.createEntity
  dsimp only
  exact mapGet_mapSet_self id _ m.entities

/-- Witness for the amended C9 at the concrete registry of the
counterexample. -/
theorem create_entity_duplicate_amended_witness :
    EntityManager.getEntity c9Before "a" =
      some { id := "a", components := [], tags := ["x"] } ∧
    EntityManager.getEntity (EntityManager.createEntity c9Before "a").2 "a" =
      some { id := "a", components := [], tags := [] } :=
  ⟨by decide,
   (create_entity_duplicate_amended c9Before "a"
      { id := "a", components := [], tags := ["x"] } (by decide)).2⟩

/-- Claim C10: addComponent on an entity already holding a component under
kind k replaces it in place — the new component is stored, the old one is
dropped with no destroy event, the new component's init is invoked exactly
once (when it defines init, as the optional-method check in the source
guards), and the component map still has one entry per kind. -/
theorem add_component_replace_contract (e : Entity) (k : String) (c old : Comp)
    (hold : mapGet k e.components = some old)
    (hnd : (e.components.map Prod.fst).Nodup) :
    mapGet k (Entity.addComponent k c e).1.components = some c ∧
    (∀ i, CompEvent.destroyCall i ∉ (Entity.addComponent k c e).2) ∧
    ((Entity.addComponent k c e).2.count (CompEvent.initCall c.cid) =
      if c.hasInit then 1 else 0) ∧
    ((Entity.addComponent k c e).1.components.map Prod.fst) =
      (e.components.map Prod.fst) ∧
    ((Entity.addComponent k c e).1.components.map Prod.fst).Nodup := by
  have hsome : (mapGet k e.components).isSome = true := by
    rw [hold]; rfl
  refine ⟨?_, ?_, ?_, ?_, ?_⟩
  · exact mapGet_mapSet_self k c e.components
  · intro i hi
    unfold Entity.addComponent at hi
    dsimp only at hi
    by_cases hin : c.hasInit
    · rw [if_pos hin] at hi
      simp at hi
    · rw [if_neg hin] at hi
      simp at hi
  · unfold Entity.addComponent
    dsimp only
    by_cases hin : c.hasInit
    · rw [if_pos hin, if_pos hin]
      simp
    · rw [if_neg hin, if_neg hin]
      simp
  · exact mapSet_keys_of_mem k c e.components hsome
  · show (List.map Prod.fst (mapSet k c e.components)).Nodup
    rw [mapSet_keys_of_mem k c e.components hsome]
    exact hnd

/-- Witness for C10 at a concrete input: an entity holding component 1 under
kind character, replaced by component 2. -/
theorem add_component_replace_contract_witness :
    mapGet "character"
      ([("character", ({ cid := 1, hasInit := true, hasDestroy := true } : Comp))]) =
      some { cid := 1, hasInit := true, hasDestroy := true } ∧
    mapGet "character"
      (Entity.addComponent "character" { cid := 2, hasInit := true, hasDestroy := false }
        { id := "h",
          components := [("character", { cid := 1, hasInit := true, hasDestroy := true })],
          tags := [] }).1.components =
      some { cid := 2, hasInit := true, hasDestroy := false } :=
  ⟨by decide,
   (add_component_replace_contract
      { id := "h",
        components := [("character", { cid := 1, hasInit := true, hasDestroy := true })],
        tags := [] }
      "character" { cid := 2, hasInit := true, hasDestroy := false }
      { cid := 1, hasInit := true, hasDestroy := true } (by decide) (by decide)).1⟩
